import Mathlib

/-!
Verification of the TensorBox dispatch layer (pennylane.tensorbox).

The repository excerpt contains `pennylane/tensorbox/tf_box.py` (the
TensorFlow operation adapter) and its functional-API tests.  The backend
classifier `fn._get_multi_tensorbox` and the functional wrappers
(`fn.cast`, `fn.convert_like`, ...) are part of the same repository but are
not included in the excerpt, so they are modelled from the specification;
each such definition is marked `Modelled from the spec:` in its doc comment.

Tensors are embedded as a shape (list of dimension sizes) together with the
flat row-major data list; multi-index access goes through the usual
row-major flat-index arithmetic.
-/

/-- Row-major flat index of a multi-index `ix` with respect to shape `s`. -/
def flatIdx : List Nat → List Nat → Nat
  | [], _ => 0
  | _ :: _, [] => 0
  | _ :: ds, i :: ix => i * ds.prod + flatIdx ds ix

/-- Row-major decoding of a flat index `k` into a multi-index for shape `s`. -/
def decodeIdx : List Nat → Nat → List Nat
  | [], _ => []
  | _ :: ds, k => k / ds.prod :: decodeIdx ds (k % ds.prod)

/-- A multi-index is valid for a shape when it has the same length and is
componentwise below the dimension sizes. -/
def validIdx : List Nat → List Nat → Bool
  | [], [] => true
  | d :: ds, i :: ix => i < d && validIdx ds ix
  | _, _ => false

/-- A tensor: a shape together with its row-major flat data. -/
structure Tensor where
  shape : List Nat
  data : List Int
  hlen : data.length = shape.prod

/-- Entry of a tensor at a multi-index (0 when out of range). -/
def Tensor.entry (t : Tensor) (ix : List Nat) : Int :=
  t.data.getD (flatIdx t.shape ix) 0

/-- The rank-0 zero tensor, used as a list-access default. -/
def scalarZero : Tensor := ⟨[], [0], rfl⟩

/-- Transpose: reverse the order of all axes.  Entry at multi-index `ix` of
the result is the entry of the original at `ix.reverse` (plain-array
transpose semantics, modelling `tf.transpose` with its default permutation). -/
def Tensor.transpose (t : Tensor) : Tensor :=
  ⟨t.shape.reverse,
   (List.range t.shape.reverse.prod).map
     (fun k => t.entry (decodeIdx t.shape.reverse k).reverse),
   by simp⟩

/-- Shape of a stack of `n` tensors of common shape `s` along `axis`. -/
def stackShape (s : List Nat) (n axis : Nat) : List Nat :=
  s.take axis ++ n :: s.drop axis

/-- Stack a list of same-shape tensors along a new axis (`tf.stack`:
modelled from the spec, which describes concatenation along a new leading or
specified axis).  Returns `none` when the input list is empty, the shapes
disagree, or the axis is out of range. -/
def Tensor.stack (ts : List Tensor) (axis : Nat) : Option Tensor :=
  match ts with
  | [] => none
  | t :: _ =>
    if ts.all (fun u => u.shape == t.shape) && axis ≤ t.shape.length then
      some ⟨stackShape t.shape ts.length axis,
            (List.range (stackShape t.shape ts.length axis).prod).map
              (fun k =>
                let ix := decodeIdx (stackShape t.shape ts.length axis) k
                (ts.getD (ix.getD axis 0) scalarZero).entry (ix.eraseIdx axis)),
            by simp⟩
    else none

/-- Extract row `i` of a tensor along its leading axis: shape drops the
leading dimension, and the data is the `i`-th block of the flat data. -/
def Tensor.rowExtract (t : Tensor) (i : Nat) : Tensor :=
  ⟨t.shape.tail,
   (List.range t.shape.tail.prod).map
     (fun r => t.data.getD (i * t.shape.tail.prod + r) 0),
   by simp⟩

/-- Insert a size-1 axis at the given position (`tf.expand_dims`). -/
def Tensor.expandDims (t : Tensor) (axis : Nat) : Tensor :=
  ⟨t.shape.take axis ++ 1 :: t.shape.drop axis, t.data, by
    have h : (t.shape.take axis ++ 1 :: t.shape.drop axis).prod = t.shape.prod := by
      rw [List.prod_append, List.prod_cons, one_mul, ← List.prod_append,
        List.take_append_drop]
    rw [t.hlen, h]⟩

/-- A tensor of ones with the same shape (`tf.ones_like`). -/
def Tensor.onesLike (t : Tensor) : Tensor :=
  ⟨t.shape, t.data.map (fun _ => 1), by rw [List.length_map, t.hlen]⟩

/-- Kind of a TensorFlow value: a `tf.Variable` or an ordinary (constant)
`tf.Tensor`. -/
inductive TFKind where
  | var
  | const
deriving DecidableEq

/-- A TensorFlow value: its kind, the kind of the source it was read from
(a tensor read from a variable under an active tape is still automatically
watched), an identity used by gradient-tape watch registration, and its
numeric data. -/
structure TFValue where
  kind : TFKind
  origin : TFKind
  vid : Nat
  data : Tensor

/-- A freshly created `tf.Variable`. -/
def tfVariable (vid : Nat) (data : Tensor) : TFValue :=
  ⟨TFKind.var, TFKind.var, vid, data⟩

/-- A freshly created constant `tf.Tensor` (`tf.constant`). -/
def tfConstant (vid : Nat) (data : Tensor) : TFValue :=
  ⟨TFKind.const, TFKind.const, vid, data⟩

/-- `tf.convert_to_tensor`: materializes a variable (or any value) to an
ordinary tensor with the same numeric data; the origin and identity are
those of the source value. -/
def convert_to_tensor (v : TFValue) : TFValue :=
  ⟨TFKind.const, v.origin, v.vid, v.data⟩

/-- The facade wrapper of `tf_box.py`: holds exactly one TensorFlow value. -/
structure TensorFlowBox where
  val : TFValue

/-- `TensorFlowBox.unbox`: the wrapped value. -/
def TensorFlowBox.unbox (b : TensorFlowBox) : TFValue := b.val

/-- `TensorFlowBox.interface` (tf_box.py line 34): the constant "tf". -/
def TensorFlowBox.interface (_ : TensorFlowBox) : String := "tf"

/-- `TensorFlowBox.astensor` (tf_box.py line 70): `tf.convert_to_tensor`. -/
def TensorFlowBox.astensor (tensor : TFValue) : TFValue := convert_to_tensor tensor

/-- Length of a TensorFlow value: the size of the leading axis of its data
(`len` of a tensor). -/
def tfValueLen (v : TFValue) : Nat := v.data.shape.headD 0

/-- Modelled from the spec: the generic `TensorBox.__len__` implementation of
the base class (`super().__len__()`), which is not part of the excerpt; the
spec describes the length query falling through to the generic
implementation, measuring the wrapped value's leading axis. -/
def genericLen (v : TFValue) : Nat := v.data.shape.headD 0

/-- `TensorFlowBox.__len__` (tf_box.py lines 38-42): a `tf.Variable` is first
materialized via `tf.convert_to_tensor` and the length of that tensor is
returned; any other value falls through to `super().__len__()`. -/
def TensorFlowBox.length (b : TensorFlowBox) : Nat :=
  if b.unbox.kind = TFKind.var then tfValueLen (convert_to_tensor b.unbox)
  else genericLen b.unbox

/-- State of TensorFlow's ambient gradient-recording machinery: either no
active gradient tape, or an active tape carrying the identities of the
explicitly watched tensors. -/
inductive TapeCtx where
  | noScope
  | activeScope (watched : List Nat)

/-- Modelled from the spec: TensorFlow's `should_record_backprop` (external
to the repository).  Per the spec's state machine, a value is recorded only
inside an active recording scope, and there exactly when it is of "variable"
kind (automatically watched) or has been explicitly registered (watched)
with the scope. -/
def shouldRecordBackprop (ctx : TapeCtx) (v : TFValue) : Bool :=
  match ctx with
  | TapeCtx.noScope => false
  | TapeCtx.activeScope ws => v.origin == TFKind.var || ws.contains v.vid

/-- `tape.watch`: explicitly register a value with an active recording
scope; outside a scope it has no effect. -/
def TapeCtx.watch (ctx : TapeCtx) (v : TFValue) : TapeCtx :=
  match ctx with
  | TapeCtx.noScope => TapeCtx.noScope
  | TapeCtx.activeScope ws => TapeCtx.activeScope (v.vid :: ws)

/-- `TensorFlowBox.requires_grad` (tf_box.py lines 66-68): delegates to
`should_record_backprop` on the converted wrapped value.  The ambient tape
state is passed explicitly. -/
def TensorFlowBox.requires_grad (ctx : TapeCtx) (b : TensorFlowBox) : Bool :=
  shouldRecordBackprop ctx (TensorFlowBox.astensor b.unbox)

/-- A tensor-like value, tagged by its producing backend: a raw Python
sequence, a plain NumPy array, an Autograd array, a Torch tensor, or a
TensorFlow value. -/
inductive TensorValue where
  | pySeq (data : Tensor)
  | npArray (data : Tensor)
  | agArray (data : Tensor)
  | torchTensor (data : Tensor)
  | tfValue (v : TFValue)

/-- Numeric content of a tensor-like value. -/
def TensorValue.content : TensorValue → Tensor
  | TensorValue.pySeq d => d
  | TensorValue.npArray d => d
  | TensorValue.agArray d => d
  | TensorValue.torchTensor d => d
  | TensorValue.tfValue v => v.data

/-- `fn.get_interface`: the backend identity of a tensor-like value, found
by type probing.  Raw sequences and plain arrays classify as "numpy"
(matches `interface_test_data` of the tests). -/
def get_interface : TensorValue → String
  | TensorValue.pySeq _ => "numpy"
  | TensorValue.npArray _ => "numpy"
  | TensorValue.agArray _ => "autograd"
  | TensorValue.torchTensor _ => "torch"
  | TensorValue.tfValue _ => "tf"

/-- The incompatibility error raised on mixed Torch/TensorFlow input
(matched by the tests against "Tensors contain mixed types"). -/
def mixedTypesMsg : String :=
  "Tensors contain mixed types; cannot determine the correct dispatch library"

/-- The warning emitted when Autograd is mixed with a non-Autograd autodiff
backend (matched by the tests). -/
def autogradWarning : String :=
  "Consider replacing Autograd with vanilla NumPy"

/-- Modelled from the spec: `fn._get_multi_tensorbox` (the classifier in
`fn.py`, which is not part of the excerpt), following spec section 4.1.
Given a sequence of tensor-like values it inspects each value's backend
identity and branches on the set of identities found: Torch together with
TensorFlow is an error; Autograd together with one of them selects that
backend and warns; otherwise the single non-plain identity (or "numpy") is
authoritative.  Emitted warnings are returned alongside the identity. -/
def get_multi_tensorbox (values : List TensorValue) :
    Except String (String × List String) :=
  let ifaces := values.map get_interface
  if "tf" ∈ ifaces ∧ "torch" ∈ ifaces then
    Except.error mixedTypesMsg
  else if "tf" ∈ ifaces then
    Except.ok ("tf", if "autograd" ∈ ifaces then [autogradWarning] else [])
  else if "torch" ∈ ifaces then
    Except.ok ("torch", if "autograd" ∈ ifaces then [autogradWarning] else [])
  else if "autograd" ∈ ifaces then
    Except.ok ("autograd", [])
  else
    Except.ok ("numpy", [])

/-- Build a tensor-like value of a given backend identity around given
numeric content (conversion targets: "numpy" gives a plain array, "tf" an
ordinary constant tensor). -/
def mkTensorValue (iface : String) (d : Tensor) : TensorValue :=
  if iface = "autograd" then TensorValue.agArray d
  else if iface = "torch" then TensorValue.torchTensor d
  else if iface = "tf" then TensorValue.tfValue (tfConstant 0 d)
  else TensorValue.npArray d

/-- Modelled from the spec: `fn.convert_like` (in `fn.py`, not part of the
excerpt): convert `t1` to the tensor class of `t2`'s backend, keeping
`t1`'s numeric content. -/
def convert_like (t1 t2 : TensorValue) : TensorValue :=
  mkTensorValue (get_interface t2) t1.content

/-- Closed set of numeric dtypes used by the cast model. -/
inductive DType where
  | int64
  | float32
  | float64
  | complex128
deriving DecidableEq

/-- The three accepted forms of a dtype argument: a backend-native dtype
object, a plain-array (NumPy) dtype object, or a string name. -/
inductive DTypeSpec where
  | native (d : DType)
  | npDtype (d : DType)
  | dtypeName (s : String)

/-- Canonical string name of a dtype. -/
def dtypeString : DType → String
  | DType.int64 => "int64"
  | DType.float32 => "float32"
  | DType.float64 => "float64"
  | DType.complex128 => "complex128"

/-- Modelled from the spec: resolution of a dtype argument.  All three
forms resolve to the same canonical dtype; an unsupported string name fails
with a value error naming the unsupported dtype (spec section 7). -/
def resolveDType : DTypeSpec → Except String DType
  | DTypeSpec.native d => Except.ok d
  | DTypeSpec.npDtype d => Except.ok d
  | DTypeSpec.dtypeName s =>
    if s = "int64" then Except.ok DType.int64
    else if s = "float32" then Except.ok DType.float32
    else if s = "float64" then Except.ok DType.float64
    else if s = "complex128" then Except.ok DType.complex128
    else Except.error ("Unsupported dtype " ++ s)

/-- A typed tensor for the cast model: a dtype together with flat numeric
values (rationals, exact stand-ins for the numeric content). -/
structure TypedTensor where
  dtype : DType
  vals : List ℚ

/-- Conversion of one numeric value to a dtype: integral dtypes truncate to
the integer part; the remaining dtypes keep the value. -/
def castVal (d : DType) (q : ℚ) : ℚ :=
  if d = DType.int64 then (⌊q⌋ : ℚ) else q

/-- Modelled from the spec: `fn.cast` (in `fn.py`, not part of the
excerpt): resolve the dtype argument, then reinterpret every value of the
tensor in the target dtype. -/
def fn_cast (t : TypedTensor) (spec : DTypeSpec) : Except String TypedTensor :=
  (resolveDType spec).map (fun d => ⟨d, t.vals.map (castVal d)⟩)

/-- A typed tensor is well-formed when an integral dtype only stores
integral values. -/
def TypedTensor.wf (t : TypedTensor) : Prop :=
  t.dtype = DType.int64 → ∀ q ∈ t.vals, (⌊q⌋ : ℚ) = q

/-- `TensorFlowBox.stack` (tf_box.py lines 44-47) in state-passing form:
unboxes the inputs, delegates to the backend stack, and wraps the result in
a fresh facade box; the input boxes are returned unchanged. -/
def TensorFlowBox.stackS (values : List TensorFlowBox) (axis : Nat) :
    Option TensorFlowBox × List TensorFlowBox :=
  ((Tensor.stack (values.map (fun b => b.unbox.data)) axis).map
      (fun t => TensorFlowBox.mk (tfConstant 0 t)),
   values)

/-- `TensorFlowBox.expand_dims` (tf_box.py lines 53-54) in state-passing
form: wraps `tf.expand_dims` of the unboxed value in a fresh box and
returns the receiver unchanged. -/
def TensorFlowBox.expand_dimsS (b : TensorFlowBox) (axis : Nat) :
    TensorFlowBox × TensorFlowBox :=
  (TensorFlowBox.mk (tfConstant 0 (b.unbox.data.expandDims axis)), b)

/-- `TensorFlowBox.ones_like` (tf_box.py lines 59-60) in state-passing
form: wraps `tf.ones_like` of the unboxed value in a fresh box and returns
the receiver unchanged. -/
def TensorFlowBox.ones_likeS (b : TensorFlowBox) :
    TensorFlowBox × TensorFlowBox :=
  (TensorFlowBox.mk (tfConstant 0 b.unbox.data.onesLike), b)

/-- `TensorFlowBox.T` (tf_box.py lines 62-64) in state-passing form: wraps
`tf.transpose` of the unboxed value in a fresh box and returns the receiver
unchanged. -/
def TensorFlowBox.TS (b : TensorFlowBox) : TensorFlowBox × TensorFlowBox :=
  (TensorFlowBox.mk (tfConstant 0 b.unbox.data.transpose), b)

/-- `TensorFlowBox.stack` (tf_box.py lines 44-47): unbox the inputs,
delegate to the backend stacking primitive, wrap the result. -/
def TensorFlowBox.stack (values : List TensorFlowBox) (axis : Nat) :
    Option TensorFlowBox :=
  (Tensor.stack (values.map (fun b => b.unbox.data)) axis).map
    (fun t => TensorFlowBox.mk (tfConstant 0 t))

/-- `TensorFlowBox.expand_dims` (tf_box.py lines 53-54). -/
def TensorFlowBox.expand_dims (b : TensorFlowBox) (axis : Nat) : TensorFlowBox :=
  TensorFlowBox.mk (tfConstant 0 (b.unbox.data.expandDims axis))

/-- `TensorFlowBox.ones_like` (tf_box.py lines 59-60). -/
def TensorFlowBox.ones_like (b : TensorFlowBox) : TensorFlowBox :=
  TensorFlowBox.mk (tfConstant 0 b.unbox.data.onesLike)

/-- `TensorFlowBox.T` (tf_box.py lines 62-64): `tf.transpose` of the
unboxed value, wrapped in a fresh box. -/
def TensorFlowBox.T (b : TensorFlowBox) : TensorFlowBox :=
  TensorFlowBox.mk (tfConstant 0 b.unbox.data.transpose)

/-- Sample rank-1 tensor [1, 2]. -/
def vec12 : Tensor := ⟨[2], [1, 2], rfl⟩

/-- Sample rank-1 tensor [3, 4]. -/
def vec34 : Tensor := ⟨[2], [3, 4], rfl⟩

/-- Sample rank-3 tensor of shape 1 x 2 x 3. -/
def cube123 : Tensor := ⟨[1, 2, 3], [1, 2, 3, 4, 5, 6], rfl⟩

theorem flatIdx_lt_prod {s ix : List Nat} (h : validIdx s ix = true) :
    flatIdx s ix < s.prod := by
  induction s generalizing ix with
  | nil =>
    cases ix with
    | nil => simp [flatIdx, List.prod_nil]
    | cons i ix => simp [validIdx] at h
  | cons d ds IH =>
    cases ix with
    | nil => simp [validIdx] at h
    | cons i ix =>
      simp only [validIdx, Bool.and_eq_true, decide_eq_true_eq] at h
      obtain ⟨hi, hix⟩ := h
      have hrec := IH hix
      calc flatIdx (d :: ds) (i :: ix) = i * ds.prod + flatIdx ds ix := rfl
        _ < i * ds.prod + ds.prod := by omega
        _ = (i + 1) * ds.prod := by ring
        _ ≤ d * ds.prod := Nat.mul_le_mul_right _ hi
        _ = (d :: ds).prod := (List.prod_cons).symm

theorem decodeIdx_flatIdx {s ix : List Nat} (h : validIdx s ix = true) :
    decodeIdx s (flatIdx s ix) = ix := by
  induction s generalizing ix with
  | nil =>
    cases ix with
    | nil => rfl
    | cons i ix => simp [validIdx] at h
  | cons d ds IH =>
    cases ix with
    | nil => simp [validIdx] at h
    | cons i ix =>
      simp only [validIdx, Bool.and_eq_true, decide_eq_true_eq] at h
      obtain ⟨hi, hix⟩ := h
      have hrec := flatIdx_lt_prod hix
      have hP : 0 < ds.prod := by omega
      have hdiv : (i * ds.prod + flatIdx ds ix) / ds.prod = i := by
        rw [Nat.add_comm, Nat.add_mul_div_right _ _ hP, Nat.div_eq_of_lt hrec]
        omega
      have hmod : (i * ds.prod + flatIdx ds ix) % ds.prod = flatIdx ds ix := by
        rw [Nat.add_comm, Nat.add_mul_mod_self_right, Nat.mod_eq_of_lt hrec]
      show (i * ds.prod + flatIdx ds ix) / ds.prod ::
          decodeIdx ds ((i * ds.prod + flatIdx ds ix) % ds.prod) = i :: ix
      rw [hdiv, hmod, IH hix]

theorem flatIdx_decodeIdx {s : List Nat} {k : Nat} (h : k < s.prod) :
    flatIdx s (decodeIdx s k) = k := by
  induction s generalizing k with
  | nil =>
    simp only [List.prod_nil] at h
    simp only [decodeIdx, flatIdx]
    omega
  | cons d ds IH =>
    have hP : 0 < ds.prod := by
      rcases Nat.eq_zero_or_pos ds.prod with h0 | h0
      · rw [List.prod_cons, h0, Nat.mul_zero] at h; omega
      · exact h0
    have hmod : k % ds.prod < ds.prod := Nat.mod_lt _ hP
    show k / ds.prod * ds.prod + flatIdx ds (decodeIdx ds (k % ds.prod)) = k
    rw [IH hmod, Nat.mul_comm, Nat.div_add_mod]

theorem validIdx_decodeIdx {s : List Nat} {k : Nat} (h : k < s.prod) :
    validIdx s (decodeIdx s k) = true := by
  induction s generalizing k with
  | nil => rfl
  | cons d ds IH =>
    have hP : 0 < ds.prod := by
      rcases Nat.eq_zero_or_pos ds.prod with h0 | h0
      · rw [List.prod_cons, h0, Nat.mul_zero] at h; omega
      · exact h0
    have hdiv : k / ds.prod < d := by
      rw [Nat.div_lt_iff_lt_mul hP]
      simpa [List.prod_cons, Nat.mul_comm] using h
    have hmod : k % ds.prod < ds.prod := Nat.mod_lt _ hP
    show (decide (k / ds.prod < d) && validIdx ds (decodeIdx ds (k % ds.prod))) = true
    rw [IH hmod, decide_eq_true hdiv, Bool.and_self]

theorem getD_map_range {α : Type} (f : Nat → α) (d : α) {n k : Nat} (h : k < n) :
    ((List.range n).map f).getD k d = f k := by
  rw [List.getD_eq_getElem?_getD, List.getElem?_map, List.getElem?_range h]
  rfl

theorem Tensor.ext' {a b : Tensor} (h1 : a.shape = b.shape) (h2 : a.data = b.data) :
    a = b := by
  cases a; cases b
  simp only at h1 h2
  subst h1; subst h2
  rfl

/-- Mapping `entry ∘ decodeIdx` over all flat positions recovers the data. -/
theorem map_entry_range (t : Tensor) :
    (List.range t.shape.prod).map (fun k => t.entry (decodeIdx t.shape k)) = t.data := by
  apply List.ext_getElem
  · simp [t.hlen]
  · intro j h1 h2
    have hj : j < t.shape.prod := by simpa using h1
    rw [List.getElem_map, List.getElem_range]
    show t.entry (decodeIdx t.shape j) = t.data[j]
    unfold Tensor.entry
    rw [flatIdx_decodeIdx hj, List.getD_eq_getElem?_getD]
    have hj' : j < t.data.length := by rw [t.hlen]; exact hj
    rw [List.getElem?_eq_getElem hj']
    rfl

theorem transpose_shape (t : Tensor) : t.transpose.shape = t.shape.reverse := rfl

theorem transpose_entry (t : Tensor) {ix : List Nat}
    (h : validIdx t.shape.reverse ix = true) :
    t.transpose.entry ix = t.entry ix.reverse := by
  unfold Tensor.transpose Tensor.entry
  simp only
  rw [getD_map_range _ _ (flatIdx_lt_prod h), decodeIdx_flatIdx h]

/-- Stacking same-shape tensors along the leading axis and extracting row `i`
recovers the `i`-th input exactly. -/
theorem stack_zero_rowExtract {ts : List Tensor} {s : List Nat}
    (hs : ∀ u ∈ ts, u.shape = s) (hne : ts ≠ []) {i : Nat} (hi : i < ts.length) :
    ∃ st, Tensor.stack ts 0 = some st ∧ st.rowExtract i = ts.getD i scalarZero := by
  obtain ⟨t, rest, rfl⟩ : ∃ t rest, ts = t :: rest := by
    cases ts with
    | nil => exact absurd rfl hne
    | cons a l => exact ⟨a, l, rfl⟩
  have hts : t.shape = s := hs t (List.mem_cons_self _ _)
  subst hts
  have hall : (t :: rest).all (fun u => u.shape == t.shape) = true := by
    rw [List.all_eq_true]
    intro u hu
    rw [beq_iff_eq, hs u hu]
  have hcond : ((t :: rest).all (fun u => u.shape == t.shape)
      && decide ((0 : Nat) ≤ t.shape.length)) = true := by
    simp [hall]
  have hstack :
      Tensor.stack (t :: rest) 0 =
      some ⟨stackShape t.shape (t :: rest).length 0,
            (List.range (stackShape t.shape (t :: rest).length 0).prod).map
              (fun k =>
                let ix := decodeIdx (stackShape t.shape (t :: rest).length 0) k
                ((t :: rest).getD (ix.getD 0 0) scalarZero).entry (ix.eraseIdx 0)),
            by simp⟩ := by
    simp only [Tensor.stack]
    rw [if_pos hcond]
  refine ⟨_, hstack, ?_⟩
  have hu : (t :: rest).getD i scalarZero = (t :: rest)[i] :=
    List.getD_eq_getElem _ _ hi
  have hmem : (t :: rest).getD i scalarZero ∈ t :: rest := by
    rw [hu]; exact List.getElem_mem _
  have hus : ((t :: rest).getD i scalarZero).shape = t.shape := hs _ hmem
  apply Tensor.ext'
  · show t.shape = ((t :: rest).getD i scalarZero).shape
    exact hus.symm
  · show (List.range t.shape.prod).map
        (fun r =>
          ((List.range ((t :: rest).length * t.shape.prod)).map
            (fun k =>
              ((t :: rest).getD (k / t.shape.prod) scalarZero).entry
                (decodeIdx t.shape (k % t.shape.prod)))).getD
            (i * t.shape.prod + r) 0)
      = ((t :: rest).getD i scalarZero).data
    apply List.ext_getElem
    · rw [List.length_map, List.length_range,
        ((t :: rest).getD i scalarZero).hlen, hus]
    · intro j h1 h2
      have hj : j < t.shape.prod := by simpa using h1
      have hP : 0 < t.shape.prod := by omega
      have hlt : i * t.shape.prod + j < (t :: rest).length * t.shape.prod := by
        calc i * t.shape.prod + j < i * t.shape.prod + t.shape.prod := by omega
          _ = (i + 1) * t.shape.prod := by ring
          _ ≤ (t :: rest).length * t.shape.prod := Nat.mul_le_mul_right _ hi
      have hdiv : (i * t.shape.prod + j) / t.shape.prod = i := by
        rw [Nat.add_comm, Nat.add_mul_div_right _ _ hP, Nat.div_eq_of_lt hj]
        omega
      have hmod : (i * t.shape.prod + j) % t.shape.prod = j := by
        rw [Nat.add_comm, Nat.add_mul_mod_self_right, Nat.mod_eq_of_lt hj]
      simp only [List.getElem_map, List.getElem_range]
      rw [getD_map_range _ _ hlt, hdiv, hmod]
      have hj' : j < ((t :: rest).getD i scalarZero).data.length := by
        rw [((t :: rest).getD i scalarZero).hlen, hus]; exact hj
      have hjs : j < ((t :: rest).getD i scalarZero).shape.prod := by
        rw [hus]; exact hj
      have e1 : ((t :: rest).getD i scalarZero).entry
          (decodeIdx ((t :: rest).getD i scalarZero).shape j)
          = ((t :: rest).getD i scalarZero).data.getD j 0 := by
        unfold Tensor.entry
        rw [flatIdx_decodeIdx hjs]
      have e2 : ((t :: rest).getD i scalarZero).data.getD j 0
          = ((t :: rest).getD i scalarZero).data[j] :=
        List.getD_eq_getElem _ _ hj'
      rw [← hus, e1, e2]

/-- C1: for every sequence of tensor-like values whose backend identities
include both Torch and TensorFlow, classification fails with the
incompatibility error — whose message contains "mixed" — regardless of the
order of the sequence or the count of values of each identity, and the
error is returned to the caller (never retried). -/
theorem claim_C1_mixed_backend_error (values : List TensorValue)
    (htf : "tf" ∈ values.map get_interface)
    (htorch : "torch" ∈ values.map get_interface) :
    get_multi_tensorbox values = Except.error mixedTypesMsg ∧
    ∃ p q : String, mixedTypesMsg = p ++ "mixed" ++ q := by
  constructor
  · simp only [get_multi_tensorbox]
    rw [if_pos ⟨htf, htorch⟩]
  · exact ⟨"Tensors contain ",
      " types; cannot determine the correct dispatch library", rfl⟩

/-- C1 witness: a TensorFlow variable together with a Torch tensor. -/
theorem claim_C1_mixed_backend_error_witness :
    get_multi_tensorbox
        [TensorValue.tfValue (tfVariable 0 scalarZero),
         TensorValue.torchTensor scalarZero]
      = Except.error mixedTypesMsg ∧
    ∃ p q : String, mixedTypesMsg = p ++ "mixed" ++ q :=
  claim_C1_mixed_backend_error _ (by decide) (by decide)

/-- C2: for every sequence whose identity set contains Autograd together
with exactly one of Torch and TensorFlow, classification succeeds, selects
that non-Autograd backend, and emits exactly one warning (the warning list
is exactly `[autogradWarning]`). -/
theorem claim_C2_autograd_mixing_warns (values : List TensorValue)
    (ha : "autograd" ∈ values.map get_interface)
    (hone : ("tf" ∈ values.map get_interface ∧
             "torch" ∉ values.map get_interface) ∨
            ("torch" ∈ values.map get_interface ∧
             "tf" ∉ values.map get_interface)) :
    ∃ b : String,
      get_multi_tensorbox values = Except.ok (b, [autogradWarning]) ∧
      ((b = "tf" ∧ "tf" ∈ values.map get_interface) ∨
       (b = "torch" ∧ "torch" ∈ values.map get_interface)) := by
  rcases hone with ⟨h1, h2⟩ | ⟨h1, h2⟩
  · refine ⟨"tf", ?_, Or.inl ⟨rfl, h1⟩⟩
    simp only [get_multi_tensorbox]
    rw [if_neg (fun hc => h2 hc.2), if_pos h1, if_pos ha]
  · refine ⟨"torch", ?_, Or.inr ⟨rfl, h1⟩⟩
    simp only [get_multi_tensorbox]
    rw [if_neg (fun hc => h2 hc.1), if_neg h2, if_pos h1, if_pos ha]

/-- C2 witness: a TensorFlow variable together with an Autograd array. -/
theorem claim_C2_autograd_mixing_warns_witness :
    ∃ b : String,
      get_multi_tensorbox
          [TensorValue.tfValue (tfVariable 0 scalarZero),
           TensorValue.agArray scalarZero]
        = Except.ok (b, [autogradWarning]) ∧
      ((b = "tf" ∧ "tf" ∈
          [TensorValue.tfValue (tfVariable 0 scalarZero),
           TensorValue.agArray scalarZero].map get_interface) ∨
       (b = "torch" ∧ "torch" ∈
          [TensorValue.tfValue (tfVariable 0 scalarZero),
           TensorValue.agArray scalarZero].map get_interface)) :=
  claim_C2_autograd_mixing_warns _ (by decide) (Or.inl ⟨by decide, by decide⟩)

/-- C3: a TensorFlow value never requires grad outside a recording scope,
regardless of kind; inside an active scope a variable requires grad
(automatically watched), while a constant requires grad exactly when it has
been explicitly registered, and registering it with the scope makes it
require grad. -/
theorem claim_C3_tf_requires_grad (v : TFValue) (ws : List Nat)
    (vid : Nat) (d : Tensor) :
    TensorFlowBox.requires_grad TapeCtx.noScope (TensorFlowBox.mk v) = false ∧
    TensorFlowBox.requires_grad (TapeCtx.activeScope ws)
      (TensorFlowBox.mk (tfVariable vid d)) = true ∧
    (TensorFlowBox.requires_grad (TapeCtx.activeScope ws)
      (TensorFlowBox.mk (tfConstant vid d)) = true ↔ vid ∈ ws) ∧
    TensorFlowBox.requires_grad ((TapeCtx.activeScope ws).watch (tfConstant vid d))
      (TensorFlowBox.mk (tfConstant vid d)) = true := by
  refine ⟨rfl, rfl, ?_, ?_⟩
  · show (ws.contains vid) = true ↔ vid ∈ ws
    exact List.elem_iff
  · show ((vid :: ws).contains vid) = true
    simp

/-- C4: classification is deterministic and depends only on the set of
distinct backend identities present in the sequence, never on position or
count: any two sequences with the same identity set classify identically. -/
theorem claim_C4_classification_set_determined (xs ys : List TensorValue)
    (h : ∀ s : String, s ∈ xs.map get_interface ↔ s ∈ ys.map get_interface) :
    get_multi_tensorbox xs = get_multi_tensorbox ys := by
  have e1 : ("tf" ∈ xs.map get_interface) = ("tf" ∈ ys.map get_interface) :=
    propext (h "tf")
  have e2 : ("torch" ∈ xs.map get_interface) = ("torch" ∈ ys.map get_interface) :=
    propext (h "torch")
  have e3 : ("autograd" ∈ xs.map get_interface)
      = ("autograd" ∈ ys.map get_interface) :=
    propext (h "autograd")
  simp only [get_multi_tensorbox, e1, e2, e3]

/-- C4 witness: two sequences with the same identity set but different
order and counts classify identically. -/
theorem claim_C4_classification_set_determined_witness :
    get_multi_tensorbox
        [TensorValue.torchTensor scalarZero, TensorValue.npArray scalarZero]
      = get_multi_tensorbox
        [TensorValue.npArray scalarZero, TensorValue.torchTensor scalarZero,
         TensorValue.torchTensor scalarZero] :=
  claim_C4_classification_set_determined _ _ (by
    intro s
    simp only [List.map_cons, List.map_nil, get_interface, List.mem_cons,
      List.not_mem_nil, or_false]
    tauto)

/-- C5: the length query on a wrapped `tf.Variable` first materializes the
variable via `tf.convert_to_tensor` and measures that tensor; for every
other wrapped value it falls through to the generic implementation. -/
theorem claim_C5_len_variable_materializes (b : TensorFlowBox) :
    (b.unbox.kind = TFKind.var →
      b.length = tfValueLen (convert_to_tensor b.unbox)) ∧
    (b.unbox.kind ≠ TFKind.var → b.length = genericLen b.unbox) := by
  constructor <;> intro h <;> simp [TensorFlowBox.length, h]

/-- C5 witness: a wrapped variable and a wrapped constant. -/
theorem claim_C5_len_variable_materializes_witness :
    (TensorFlowBox.mk (tfVariable 0 vec12)).length
      = tfValueLen (convert_to_tensor (tfVariable 0 vec12)) ∧
    (TensorFlowBox.mk (tfConstant 0 vec12)).length
      = genericLen (tfConstant 0 vec12) :=
  ⟨(claim_C5_len_variable_materializes _).1 rfl,
   (claim_C5_len_variable_materializes _).2 (by decide)⟩

/-- Stacking same-shape tensors along any in-range axis succeeds and
inserts the new axis of size `ts.length` at that position. -/
theorem stack_some_shape {ts : List Tensor} {s : List Nat}
    (hs : ∀ u ∈ ts, u.shape = s) (hne : ts ≠ []) {axis : Nat}
    (ha : axis ≤ s.length) :
    ∃ st, Tensor.stack ts axis = some st ∧
      st.shape = s.take axis ++ ts.length :: s.drop axis := by
  obtain ⟨t, rest, rfl⟩ : ∃ t rest, ts = t :: rest := by
    cases ts with
    | nil => exact absurd rfl hne
    | cons a l => exact ⟨a, l, rfl⟩
  have hts : t.shape = s := hs t (List.mem_cons_self _ _)
  subst hts
  have hall : (t :: rest).all (fun u => u.shape == t.shape) = true := by
    rw [List.all_eq_true]
    intro u hu
    rw [beq_iff_eq, hs u hu]
  have hcond : ((t :: rest).all (fun u => u.shape == t.shape)
      && decide (axis ≤ t.shape.length)) = true := by
    simp [hall, ha]
  refine ⟨⟨stackShape t.shape (t :: rest).length axis,
      (List.range (stackShape t.shape (t :: rest).length axis).prod).map
        (fun k =>
          let ix := decodeIdx (stackShape t.shape (t :: rest).length axis) k
          ((t :: rest).getD (ix.getD axis 0) scalarZero).entry (ix.eraseIdx axis)),
      by simp⟩, ?_, rfl⟩
  simp only [Tensor.stack]
  rw [if_pos hcond]

/-- C6: stacking broadcast-compatible (same-shape) tensors concatenates
them along a new leading axis (or the specified axis), and extracting row
`i` of the default, leading-axis stack recovers the `i`-th input exactly. -/
theorem claim_C6_stack_roundtrip {ts : List Tensor} {s : List Nat}
    (hs : ∀ u ∈ ts, u.shape = s) (hne : ts ≠ []) :
    (∀ axis, axis ≤ s.length →
      ∃ st, Tensor.stack ts axis = some st ∧
        st.shape = s.take axis ++ ts.length :: s.drop axis) ∧
    (∀ i, i < ts.length →
      ∃ st, Tensor.stack ts 0 = some st ∧ st.shape = ts.length :: s ∧
        st.rowExtract i = ts.getD i scalarZero) := by
  constructor
  · intro axis ha
    exact stack_some_shape hs hne ha
  · intro i hi
    obtain ⟨st, h1, h2⟩ := stack_zero_rowExtract hs hne hi
    obtain ⟨st', h1', h2'⟩ := stack_some_shape hs hne (Nat.zero_le s.length)
    rw [h1] at h1'
    obtain rfl : st = st' := Option.some.inj h1'
    refine ⟨st, h1, ?_, h2⟩
    simpa using h2'

/-- C6 witness: stacking [1, 2] and [3, 4] and extracting row 1. -/
theorem claim_C6_stack_roundtrip_witness :
    ∃ st, Tensor.stack [vec12, vec34] 0 = some st ∧
      st.shape = [vec12, vec34].length :: [2] ∧
      st.rowExtract 1 = [vec12, vec34].getD 1 scalarZero :=
  (claim_C6_stack_roundtrip
    (by
      intro u hu
      simp only [List.mem_cons, List.not_mem_nil, or_false] at hu
      rcases hu with rfl | rfl <;> rfl)
    (by simp)).2 1 (by decide)

/-- C7: `convert_like t1 t2` yields a value with `t2`'s backend identity
and `t1`'s numeric content; in particular a rank-0 (scalar) input stays a
rank-0 value of `t2`'s backend. -/
theorem claim_C7_convert_like (t1 t2 : TensorValue) :
    get_interface (convert_like t1 t2) = get_interface t2 ∧
    (convert_like t1 t2).content = t1.content ∧
    (t1.content.shape = [] → (convert_like t1 t2).content.shape = []) := by
  have h2 : (convert_like t1 t2).content = t1.content := by
    cases t2 <;> rfl
  refine ⟨?_, h2, ?_⟩
  · cases t2 <;> rfl
  · intro h
    rw [h2, h]

/-- C7 witness: a plain scalar converted like a rank-1 Torch tensor. -/
theorem claim_C7_convert_like_witness :
    get_interface (convert_like (TensorValue.pySeq scalarZero)
        (TensorValue.torchTensor vec12))
      = get_interface (TensorValue.torchTensor vec12) ∧
    (convert_like (TensorValue.pySeq scalarZero)
        (TensorValue.torchTensor vec12)).content
      = (TensorValue.pySeq scalarZero).content ∧
    (convert_like (TensorValue.pySeq scalarZero)
        (TensorValue.torchTensor vec12)).content.shape = [] :=
  ⟨(claim_C7_convert_like _ _).1, (claim_C7_convert_like _ _).2.1,
   (claim_C7_convert_like _ _).2.2 rfl⟩

/-- A dtype's canonical string name resolves back to the dtype itself. -/
theorem resolve_dtypeString (d : DType) :
    resolveDType (DTypeSpec.dtypeName (dtypeString d)) = Except.ok d := by
  cases d <;> rfl

/-- C8: casting a well-formed tensor that already has dtype `d` to `d` is
the identity (dtype and content unchanged), whether `d` is given as a
backend-native dtype object, a plain-array dtype object, or a string name —
and all three forms resolve to the same result. -/
theorem claim_C8_cast_idempotent (t : TypedTensor) (d : DType)
    (hwf : t.wf) (hd : t.dtype = d) :
    fn_cast t (DTypeSpec.native d) = Except.ok t ∧
    fn_cast t (DTypeSpec.npDtype d) = Except.ok t ∧
    fn_cast t (DTypeSpec.dtypeName (dtypeString d)) = Except.ok t := by
  have hmap : t.vals.map (castVal d) = t.vals := by
    by_cases hdi : d = DType.int64
    · subst hdi
      have hfix : ∀ q ∈ t.vals, castVal DType.int64 q = q := by
        intro q hq
        simp only [castVal, if_pos rfl]
        exact hwf hd q hq
      calc t.vals.map (castVal DType.int64) = t.vals.map id :=
            List.map_congr_left hfix
        _ = t.vals := List.map_id _
    · have hfix : ∀ q ∈ t.vals, castVal d q = q := by
        intro q hq
        simp [castVal, hdi]
      calc t.vals.map (castVal d) = t.vals.map id := List.map_congr_left hfix
        _ = t.vals := List.map_id _
  have hres : (⟨d, t.vals.map (castVal d)⟩ : TypedTensor) = t := by
    rw [hmap, ← hd]
  refine ⟨?_, ?_, ?_⟩
  · show Except.ok (⟨d, t.vals.map (castVal d)⟩ : TypedTensor) = Except.ok t
    rw [hres]
  · show Except.ok (⟨d, t.vals.map (castVal d)⟩ : TypedTensor) = Except.ok t
    rw [hres]
  · show (resolveDType (DTypeSpec.dtypeName (dtypeString d))).map
        (fun d' => (⟨d', t.vals.map (castVal d')⟩ : TypedTensor)) = Except.ok t
    rw [resolve_dtypeString]
    show Except.ok (⟨d, t.vals.map (castVal d)⟩ : TypedTensor) = Except.ok t
    rw [hres]

/-- C8 witness: a float64 tensor cast to float64 in all three forms. -/
theorem claim_C8_cast_idempotent_witness :
    fn_cast ⟨DType.float64, [(3 : ℚ) / 2]⟩ (DTypeSpec.native DType.float64)
      = Except.ok ⟨DType.float64, [(3 : ℚ) / 2]⟩ ∧
    fn_cast ⟨DType.float64, [(3 : ℚ) / 2]⟩ (DTypeSpec.npDtype DType.float64)
      = Except.ok ⟨DType.float64, [(3 : ℚ) / 2]⟩ ∧
    fn_cast ⟨DType.float64, [(3 : ℚ) / 2]⟩
        (DTypeSpec.dtypeName (dtypeString DType.float64))
      = Except.ok ⟨DType.float64, [(3 : ℚ) / 2]⟩ :=
  claim_C8_cast_idempotent _ _ (fun h => nomatch h) rfl

/-- C9: the facade transpose reverses the order of all axes — the entry at
`ix` of the result is the entry at `ix.reverse` of the input, for every
valid multi-index, matching plain-array transpose semantics — and the
result carries the same backend identity as the input. -/
theorem claim_C9_transpose_reverses_axes (b : TensorFlowBox) {ix : List Nat}
    (h : validIdx b.unbox.data.shape.reverse ix = true) :
    b.T.unbox.data.shape = b.unbox.data.shape.reverse ∧
    b.T.unbox.data.entry ix = b.unbox.data.entry ix.reverse ∧
    b.T.interface = b.interface :=
  ⟨rfl, transpose_entry _ h, rfl⟩

/-- C9 witness: transposing a 1 x 2 x 3 tensor and reading entry
[2, 1, 0]. -/
theorem claim_C9_transpose_reverses_axes_witness :
    (TensorFlowBox.mk (tfConstant 0 cube123)).T.unbox.data.shape
      = (TensorFlowBox.mk (tfConstant 0 cube123)).unbox.data.shape.reverse ∧
    (TensorFlowBox.mk (tfConstant 0 cube123)).T.unbox.data.entry [2, 1, 0]
      = (TensorFlowBox.mk (tfConstant 0 cube123)).unbox.data.entry
          [2, 1, 0].reverse ∧
    (TensorFlowBox.mk (tfConstant 0 cube123)).T.interface
      = (TensorFlowBox.mk (tfConstant 0 cube123)).interface :=
  claim_C9_transpose_reverses_axes _ (by decide)

/-- C10: each tensor-producing facade operation (stack, expand_dims,
ones_like, T), embedded in state-passing form, returns a freshly
constructed wrapper around the backend result and leaves the receiver (or
input list) unchanged, and the interface tag is the constant "tf" for every
wrapped value. -/
theorem claim_C10_ops_pure_fresh (b : TensorFlowBox)
    (values : List TensorFlowBox) (axis : Nat) :
    (TensorFlowBox.stackS values axis).2 = values ∧
    (TensorFlowBox.stackS values axis).1 = TensorFlowBox.stack values axis ∧
    (b.expand_dimsS axis).2 = b ∧
    (b.expand_dimsS axis).1
      = TensorFlowBox.mk (tfConstant 0 (b.unbox.data.expandDims axis)) ∧
    b.ones_likeS.2 = b ∧
    b.ones_likeS.1 = TensorFlowBox.mk (tfConstant 0 b.unbox.data.onesLike) ∧
    b.TS.2 = b ∧
    b.TS.1 = TensorFlowBox.mk (tfConstant 0 b.unbox.data.transpose) ∧
    b.interface = "tf" :=
  ⟨rfl, rfl, rfl, rfl, rfl, rfl, rfl, rfl, rfl⟩
